import Mathlib

/-!
Shallow embedding of the neon-snake game core (src/engine/rng.ts,
src/engine/spawn.ts, the collision module, src/engine/GameEngine.ts).

Modelling conventions:
* JS numbers that are only ever integers in the program (coordinates,
  timestamps in ms, tick rates, seeds, scores) are embedded as `Int` / `Nat`.
* The 32-bit coercions performed by JS bitwise operators (`|0`-style wraps,
  `>>>`, `Math.imul`) are made explicit with `% 4294967296`.
* `rng.next()` returns `raw / 2^32` in JS; we carry the raw 32-bit `Nat`.
  The JS float is the bijective image `raw / 2^32`, so statements about the
  raw stream and about the float stream are equivalent.  Where the program
  compares `next()` against fractional probability constants the roll is
  embedded as the exact rational `raw / 2^32`.
* `performance.now()` / `Date.now()` are environment inputs: functions that
  read them take the sampled value as an explicit argument.
* Rendering, particles, screen shake, sound and the event emitter are
  observers of the state (no game-state field depends on them); they are
  omitted from the state model, as are the externally stored high-score
  (parameterised) and the daily-seed date string (the reseed value is an
  explicit argument of `startGame`).
-/

/-! ### Core types (src/types/index.ts) -/

structure Vector2 where
  x : Int
  y : Int
deriving DecidableEq, Repr

structure SnakeSegment where
  x : Int
  y : Int
  prevX : Int
  prevY : Int
deriving DecidableEq, Repr

inductive Direction
  | up
  | down
  | left
  | right
deriving DecidableEq, Repr

def DIRECTION_VECTORS : Direction → Vector2
  | .up => ⟨0, -1⟩
  | .down => ⟨0, 1⟩
  | .left => ⟨-1, 0⟩
  | .right => ⟨1, 0⟩

def OPPOSITE_DIRECTION : Direction → Direction
  | .up => .down
  | .down => .up
  | .left => .right
  | .right => .left

inductive FoodType
  | normal
  | special
  | speed
  | slow
deriving DecidableEq, Repr

/-- `Food extends Vector2` with type, spawnTime and optional expiry (ms). -/
structure Food where
  x : Int
  y : Int
  type : FoodType
  spawnTime : Int
  expiresAt : Option Int
deriving DecidableEq, Repr

inductive GamePhase
  | boot
  | menu
  | playing
  | paused
  | gameover
deriving DecidableEq, Repr

inductive GameMode
  | classic
  | daily
  | zen
deriving DecidableEq, Repr

/-! ### Seeded PRNG (src/engine/rng.ts)

The internal state is the JS number `this.seed`.  `next()` adds the
mulberry32 increment to the seed (plain JS `+=`, no 32-bit wrap on the
stored seed) and scrambles the 32-bit image of the new seed. -/

/-- JS `ToUint32` of an integer-valued number: the 32-bit bit pattern. -/
def toUint32 (z : Int) : Nat := (z % 4294967296).toNat

/-- JS `ToInt32` of an integer-valued number (`hash & hash` / `| 0` wrap). -/
def toInt32 (z : Int) : Int :=
  let m := z % 4294967296
  if m < 2147483648 then m else m - 4294967296

/-- The mulberry32 scramble applied by `next()` to the 32-bit image `t0` of
the updated seed.  Mirrors
`t = Math.imul(t ^ (t >>> 15), t | 1);
 t ^= t + Math.imul(t ^ (t >>> 7), t | 61);
 return ((t ^ (t >>> 14)) >>> 0)` as operations on 32-bit bit patterns. -/
def mulberry32 (t0 : Nat) : Nat :=
  let t1 := t0 ^^^ (t0 >>> 15)
  let t2 := (t1 * (t0 ||| 1)) % 4294967296
  let inner := ((t2 ^^^ (t2 >>> 7)) * (t2 ||| 61)) % 4294967296
  let t3 := t2 ^^^ ((t2 + inner) % 4294967296)
  t3 ^^^ (t3 >>> 14)

/-- `next()`: returns the raw 32-bit output (the JS float is `raw / 2^32`)
together with the updated seed (`this.seed += 0x6d2b79f5`). -/
def SeededRNG.next (seed : Int) : Nat × Int :=
  let seed2 := seed + 0x6d2b79f5
  (mulberry32 (toUint32 seed2), seed2)

/-- One step of `hashString`'s loop:
`hash = ((hash << 5) - hash) + char; hash = hash & hash;`.
`hash << 5` coerces to int32 before and after shifting; the `& hash`
folds the exact intermediate sum back to int32. -/
def hashStep (hash : Int) (c : Nat) : Int :=
  toInt32 (toInt32 (hash * 32) - hash + c)

/-- `hashString(str)`: polynomial rolling hash of the char codes, folded to
int32 each step, with `Math.abs` applied to the result. -/
def hashString (codes : List Nat) : Int :=
  ((codes.foldl hashStep 0).natAbs : Int)

/-- A constructor seed: JS `number | string` (a string is its char codes). -/
inductive RNGSeedInput
  | num (n : Int)
  | str (codes : List Nat)

/-- The `SeededRNG` constructor: string seeds are hashed, numeric seeds are
used directly.  The result is the initial internal state. -/
def SeededRNG.create : RNGSeedInput → Int
  | .num n => n
  | .str codes => hashString codes

/-- `pick(array)`: `array[Math.floor(this.next() * array.length)]`.
`floor(raw / 2^32 * len)` is the integer `raw * len / 2^32`.
(When the list is empty JS yields `undefined`; the engine only calls this
on non-empty lists, proved where used; the default is never read there.) -/
def SeededRNG.pick (seed : Int) (l : List Vector2) : Vector2 × Int :=
  let r := SeededRNG.next seed
  (l.getD (r.1 * l.length / 4294967296) ⟨0, 0⟩, r.2)

/-- Internal state after `n` calls to `next()` starting from `seed`. -/
def rngState (seed : Int) : Nat → Int
  | 0 => seed
  | n + 1 => (SeededRNG.next (rngState seed n)).2

/-- Raw 32-bit value returned by the `(n+1)`-th call to `next()`. -/
def rngOutput (seed : Int) (n : Nat) : Nat :=
  (SeededRNG.next (rngState seed n)).1

/-- Char codes of the string literal `daily-20240115`. -/
def dailyCodes20240115 : List Nat :=
  [100, 97, 105, 108, 121, 45, 50, 48, 50, 52, 48, 49, 49, 53]

/-! ### Collision module (pure predicates) -/

def checkWallCollision (pos : Vector2) (gridWidth gridHeight : Nat) : Bool :=
  decide (pos.x < 0 ∨ pos.x ≥ (gridWidth : Int) ∨ pos.y < 0 ∨ pos.y ≥ (gridHeight : Int))

/-- `checkSelfCollision(head, body, skipFirst = 1)`: head equals some body
segment at index ≥ skipFirst. -/
def checkSelfCollision (head : Vector2) (body : List SnakeSegment) (skipFirst : Nat) : Bool :=
  (body.drop skipFirst).any fun seg => seg.x == head.x && seg.y == head.y

def getNextHeadPosition (current : Vector2) (direction : Vector2) : Vector2 :=
  ⟨current.x + direction.x, current.y + direction.y⟩

/-- `wrapPosition(pos, w, h)`: `((pos.x % w) + w) % w` per axis.  JS `%` on
integers is the truncating remainder, i.e. `Int.tmod`. -/
def wrapPosition (pos : Vector2) (gridWidth gridHeight : Nat) : Vector2 :=
  ⟨((pos.x.tmod (gridWidth : Int)) + gridWidth).tmod (gridWidth : Int),
   ((pos.y.tmod (gridHeight : Int)) + gridHeight).tmod (gridHeight : Int)⟩

/-! ### Spawn system (src/engine/spawn.ts) -/

structure SpawnConfig where
  gridWidth : Nat
  gridHeight : Nat
  specialChance : ℚ
  speedChance : ℚ
  slowChance : ℚ
  specialDuration : Int
deriving DecidableEq, Repr

def DEFAULT_CONFIG : SpawnConfig :=
  { gridWidth := 20
    gridHeight := 20
    specialChance := 8 / 100
    speedChance := 5 / 100
    slowChance := 5 / 100
    specialDuration := 8000 }

/-- Membership test of `(x, y)` in the occupied set.  The source stores the
keys `x + "," + y` in a `Set`; for integer coordinates that key is injective,
so `has` is exactly this existence test. -/
def occupiedSetHas (occupied : List Vector2) (x y : Int) : Bool :=
  occupied.any fun p => p.x == x && p.y == y

/-- `getEmptyCells`: outer loop over `x`, inner loop over `y`, pushing every
cell whose key is not in the occupied set (column-major traversal). -/
def getEmptyCells (gridWidth gridHeight : Nat) (occupied : List Vector2) : List Vector2 :=
  (List.range gridWidth).flatMap fun (x : Nat) =>
    (List.range gridHeight).filterMap fun (y : Nat) =>
      if occupiedSetHas occupied (x : Int) (y : Int) then none
      else some ⟨(x : Int), (y : Int)⟩

/-- `spawnFood(rng, snake, config, currentScore)`.  The RNG is passed and
returned explicitly (the class mutates it in place); `now` is the sampled
`performance.now()`.  Full grid ⇒ `none` with the RNG untouched; otherwise
one `pick` draw for the position and one unconditional `next()` roll for the
type, with the special bands gated on `currentScore > 30`. -/
def spawnFood (seed : Int) (snake : List SnakeSegment) (cfg : SpawnConfig)
    (currentScore : Nat) (now : Int) : Option Food × Int :=
  let emptyCells := getEmptyCells cfg.gridWidth cfg.gridHeight
    (snake.map fun seg => ⟨seg.x, seg.y⟩)
  if emptyCells.length = 0 then
    (none, seed)
  else
    let pr := SeededRNG.pick seed emptyCells
    let pos := pr.1
    let r2 := SeededRNG.next pr.2
    let roll : ℚ := (r2.1 : ℚ) / 4294967296
    let ty : FoodType :=
      if currentScore > 30 then
        if roll < cfg.specialChance then .special
        else if roll < cfg.specialChance + cfg.speedChance then .speed
        else if roll < cfg.specialChance + cfg.speedChance + cfg.slowChance then .slow
        else .normal
      else .normal
    (some { x := pos.x
            y := pos.y
            type := ty
            spawnTime := now
            expiresAt := if ty ≠ .normal then some (now + cfg.specialDuration) else none },
     r2.2)

/-- `isFoodValid(food, now)`.  The source tests `food.expiresAt && now >
food.expiresAt`; number truthiness makes an `expiresAt` of `0` falsy, so a
food with `expiresAt = 0` is reported valid at every time. -/
def isFoodValid (food : Food) (currentTime : Int) : Bool :=
  match food.expiresAt with
  | some e => if e ≠ 0 ∧ currentTime > e then false else true
  | none => true

def getFoodScore (ty : FoodType) (combo : Nat) : Nat :=
  (match ty with
   | .normal => 10
   | .special => 50
   | .speed => 30
   | .slow => 20) + combo * 5

/-! ### Game engine state machine (src/engine/GameEngine.ts)

The mutable `GameState` aggregate; operations are functions
`GameState → GameState`.  Environment samples (`performance.now()`,
`Date.now()` / daily reseed, the externally stored high score) are explicit
arguments.  `dailySeed`, particles, screen shake, `poppedTail` and the event
emitter do not feed back into any modelled field and are omitted. -/

structure GameState where
  phase : GamePhase
  mode : GameMode
  score : Nat
  highScore : Nat
  combo : Nat
  lastEatTime : Int
  comboWindow : Int
  snake : List SnakeSegment
  direction : Direction
  nextDirection : Option Direction
  directionBuffer : List Direction
  food : Option Food
  gridWidth : Nat
  gridHeight : Nat
  tickRate : Int
  baseTickRate : Int
  tickCount : Nat
  gracePeriodTicks : Int
  rngSeed : Int
deriving DecidableEq, Repr

def COMBO_WINDOW_MS : Int := 2500
def GRACE_PERIOD_TICKS : Int := 3

def BASE_TICK_RATES : GameMode → Int
  | .classic => 100
  | .daily => 100
  | .zen => 150

def MIN_TICK_RATE : Int := 50
def SPEED_INCREMENT_SCORE : Nat := 50
def SPEED_INCREMENT_MS : Int := 3

/-- The spawn configuration the engine passes: only the grid dimensions,
merged over the defaults (`{ ...DEFAULT_CONFIG, ...config }`). -/
def engineSpawnConfig (s : GameState) : SpawnConfig :=
  { DEFAULT_CONFIG with gridWidth := s.gridWidth, gridHeight := s.gridHeight }

/-- `createInitialState()`; the constructor seeds the RNG from `Date.now()`
and loads the stored classic high score, both taken as arguments. -/
def createInitialState (seed : Int) (storedHighScore : Nat) : GameState :=
  { phase := .boot
    mode := .classic
    score := 0
    highScore := storedHighScore
    combo := 0
    lastEatTime := 0
    comboWindow := COMBO_WINDOW_MS
    snake := []
    direction := .right
    nextDirection := none
    directionBuffer := []
    food := none
    gridWidth := 20
    gridHeight := 20
    tickRate := BASE_TICK_RATES .classic
    baseTickRate := BASE_TICK_RATES .classic
    tickCount := 0
    gracePeriodTicks := GRACE_PERIOD_TICKS
    rngSeed := seed }

def setGridSize (w h : Nat) (s : GameState) : GameState :=
  { s with gridWidth := w, gridHeight := h }

/-- `startGame(mode)`.  `reseed` is the fresh RNG state (for daily mode the
hash of the daily string, otherwise `Date.now()`); `storedHighScore` is the
externally loaded high score for the mode; `now` is `performance.now()`
sampled inside the first spawn. -/
def startGame (mode : GameMode) (reseed : Int) (storedHighScore : Nat)
    (now : Int) (s : GameState) : GameState :=
  let startX : Int := (s.gridWidth / 2 : Nat)
  let startY : Int := (s.gridHeight / 2 : Nat)
  let snake : List SnakeSegment :=
    [{ x := startX, y := startY, prevX := startX, prevY := startY },
     { x := startX - 1, y := startY, prevX := startX - 1, prevY := startY },
     { x := startX - 2, y := startY, prevX := startX - 2, prevY := startY }]
  let cfg := { DEFAULT_CONFIG with gridWidth := s.gridWidth, gridHeight := s.gridHeight }
  let sp := spawnFood reseed snake cfg 0 now
  { s with
    mode := mode
    score := 0
    highScore := storedHighScore
    combo := 0
    lastEatTime := 0
    direction := .right
    nextDirection := none
    directionBuffer := []
    tickCount := 0
    gracePeriodTicks := GRACE_PERIOD_TICKS
    baseTickRate := BASE_TICK_RATES mode
    tickRate := BASE_TICK_RATES mode
    snake := snake
    food := sp.1
    rngSeed := sp.2
    phase := .playing }

def goToMenu (s : GameState) : GameState :=
  { s with phase := .menu }

def pause (s : GameState) : GameState :=
  if s.phase = .playing then { s with phase := .paused } else s

def resume (s : GameState) : GameState :=
  if s.phase = .paused then { s with phase := .playing } else s

def togglePause (s : GameState) : GameState :=
  if s.phase = .playing then pause s
  else if s.phase = .paused then resume s
  else s

/-- `setDirection(dir)`: reject outside `playing`; reference direction is the
most recently buffered direction, else the current one; reject reversal and
repetition; push only while fewer than 2 inputs are buffered. -/
def setDirection (dir : Direction) (s : GameState) : GameState :=
  if s.phase ≠ .playing then s
  else
    let refDir := s.directionBuffer.getLastD s.direction
    if OPPOSITE_DIRECTION dir = refDir then s
    else if dir = refDir then s
    else if s.directionBuffer.length < 2 then
      { s with directionBuffer := s.directionBuffer ++ [dir] }
    else s

/-- The tick-rate part of `eatFood`: the speed-food cut (floored at
`MIN_TICK_RATE`), the slow-food relief (capped at the base rate), and the
score-derived ramp that — except right after slow food — nudges the rate
down by at most 2 ms toward `max(50, base − floor(score/50)·3)`. -/
def eatTickRate (foodType : FoodType) (score2 : Nat) (tickRate baseTickRate : Int) : Int :=
  let rate1 := if foodType = .speed then max MIN_TICK_RATE (tickRate - 20) else tickRate
  let rate2 := if foodType = .slow then min baseTickRate (rate1 + 30) else rate1
  let speedLevel : Nat := score2 / SPEED_INCREMENT_SCORE
  let targetTickRate := max MIN_TICK_RATE (baseTickRate - (speedLevel : Int) * SPEED_INCREMENT_MS)
  if foodType ≠ .slow ∧ rate2 > targetTickRate then max targetTickRate (rate2 - 2) else rate2

/-- `eatFood()` (private): combo, score, high score, the speed/slow food
effects, the score-derived speed ramp (see `eatTickRate`), and the
respawn. -/
def eatFood (now : Int) (s : GameState) : GameState :=
  match s.food with
  | none => s
  | some food =>
    let foodType := food.type
    let combo2 := if now - s.lastEatTime < s.comboWindow then s.combo + 1 else 1
    let scoreGain := getFoodScore foodType combo2
    let score2 := s.score + scoreGain
    let high2 := if score2 > s.highScore then score2 else s.highScore
    let s2 := { s with
      combo := combo2
      lastEatTime := now
      score := score2
      highScore := high2
      tickRate := eatTickRate foodType score2 s.tickRate s.baseTickRate }
    let sp := spawnFood s2.rngSeed s2.snake (engineSpawnConfig s2) s2.score now
    { s2 with food := sp.1, rngSeed := sp.2 }

/-- Step 1 of `tick`: combo expiry. -/
def comboStep (now : Int) (s : GameState) : GameState :=
  if s.combo > 0 ∧ now - s.lastEatTime > s.comboWindow then { s with combo := 0 } else s

/-- Step 2 of `tick`: food expiry and score-aware respawn. -/
def foodExpiryStep (now : Int) (s : GameState) : GameState :=
  match s.food with
  | some f =>
    if ¬ isFoodValid f now then
      let sp := spawnFood s.rngSeed s.snake (engineSpawnConfig s) s.score now
      { s with food := sp.1, rngSeed := sp.2 }
    else s
  | none => s

/-- Step 3 of `tick`: dequeue one buffered direction; apply it unless it is
the opposite of the current direction. -/
def applyBufferStep (s : GameState) : GameState :=
  match s.directionBuffer with
  | [] => s
  | d :: rest =>
    if OPPOSITE_DIRECTION d ≠ s.direction then
      { s with direction := d, directionBuffer := rest }
    else
      { s with directionBuffer := rest }

/-- Step 4 of `tick`: snapshot current positions into the `prev` slots. -/
def snapshotStep (s : GameState) : GameState :=
  { s with snake := s.snake.map fun seg => { seg with prevX := seg.x, prevY := seg.y } }

/-- Steps 1-4 of `tick`, before the movement/collision resolution. -/
def preMove (now : Int) (s : GameState) : GameState :=
  snapshotStep (applyBufferStep (foodExpiryStep now (comboStep now s)))

/-- The next head position `tick` computes: one cell in the current
direction, wrapped toroidally in zen mode.  `none` when the snake is empty
(the source would fault reading `snake[0]`; unreachable while playing). -/
def computedNewHead (s : GameState) : Option Vector2 :=
  match s.snake with
  | [] => none
  | head :: _ =>
    let nh := getNextHeadPosition ⟨head.x, head.y⟩ (DIRECTION_VECTORS s.direction)
    some (if s.mode = .zen then wrapPosition nh s.gridWidth s.gridHeight else nh)

/-- `this.state.snake.pop()` on the already-grown snake (no growth). -/
def popTail (s1 : GameState) : GameState :=
  { s1 with snake := s1.snake.dropLast }

/-- Step 9 of `tick` after the head was prepended: eat the food under the
new head, or pop the tail. -/
def resolveFood (now : Int) (newHead : Vector2) (s1 : GameState) : GameState :=
  match s1.food with
  | some f =>
    if newHead.x = f.x ∧ newHead.y = f.y then eatFood now s1
    else popTail s1
  | none => popTail s1

/-- Step 10 of `tick`: decrement remaining grace ticks, bump `tickCount`. -/
def graceAndCount (s2 : GameState) : GameState :=
  let s3 : GameState :=
    if s2.gracePeriodTicks > 0 then
      { s2 with gracePeriodTicks := s2.gracePeriodTicks - 1 }
    else s2
  { s3 with tickCount := s3.tickCount + 1 }

/-- Step 9-10 of `tick` in the non-colliding case: prepend the new head
segment, eat or pop the tail, decrement remaining grace, bump `tickCount`. -/
def moveBranch (now : Int) (newHead : Vector2) (head : SnakeSegment)
    (s : GameState) : GameState :=
  let newSeg : SnakeSegment :=
    { x := newHead.x, y := newHead.y, prevX := head.x, prevY := head.y }
  graceAndCount (resolveFood now newHead { s with snake := newSeg :: s.snake })

/-- Steps 5-10 of `tick`: collision resolution, grace absorption, game over,
movement/growth (`moveBranch`), grace decrement and tick count. -/
def moveStep (now : Int) (s : GameState) : GameState :=
  match computedNewHead s with
  | none => s
  | some newHead =>
    let wallHit := checkWallCollision newHead s.gridWidth s.gridHeight
    let selfHit := checkSelfCollision newHead s.snake 1
    if wallHit || selfHit then
      if s.gracePeriodTicks > 0 ∨ (s.mode = .zen ∧ selfHit = true) then
        { s with gracePeriodTicks := s.gracePeriodTicks - 1 }
      else
        { s with phase := .gameover }
    else
      match s.snake with
      | [] => s
      | head :: _ => moveBranch now newHead head s

/-- `tick(deltaMs)`.  `deltaMs` only drives the (omitted) shake decay and
particle integration; `now` is the `performance.now()` sample taken at the
top of the call. -/
def tick (now deltaMs : Int) (s : GameState) : GameState :=
  if s.phase ≠ .playing then s
  else
    let _ := deltaMs
    moveStep now (preMove now s)

/-- The `wallHit || selfHit` test of `moveStep` on a state. -/
def collides (s : GameState) : Bool :=
  match computedNewHead s with
  | none => false
  | some newHead =>
    checkWallCollision newHead s.gridWidth s.gridHeight ||
      checkSelfCollision newHead s.snake 1

/-- Whether the tick started at `s` (with clock `now`) computes a colliding
next head position: `moveStep`'s collision test evaluated on the
post-step-1-4 state. -/
def collidesAt (now : Int) (s : GameState) : Bool :=
  collides (preMove now s)

/-- Fold a list of `(now, deltaMs)` samples through `tick`. -/
def applyTicks (samples : List (Int × Int)) (s : GameState) : GameState :=
  samples.foldl (fun st p => tick p.1 p.2 st) s

/-- The positions (ignoring the interpolation `prev` slots) of a snake. -/
def positions (snake : List SnakeSegment) : List (Int × Int) :=
  snake.map fun seg => (seg.x, seg.y)

/-- States reachable through the public operations, from the constructor
state, with arbitrary environment samples at every call. -/
inductive Reachable : GameState → Prop
  | init (seed : Int) (storedHighScore : Nat) :
      Reachable (createInitialState seed storedHighScore)
  | startGame (s : GameState) (mode : GameMode) (reseed : Int)
      (storedHighScore : Nat) (now : Int) :
      Reachable s → Reachable (startGame mode reseed storedHighScore now s)
  | tick (s : GameState) (now deltaMs : Int) :
      Reachable s → Reachable (tick now deltaMs s)
  | setDirection (s : GameState) (dir : Direction) :
      Reachable s → Reachable (setDirection dir s)
  | pause (s : GameState) : Reachable s → Reachable (pause s)
  | resume (s : GameState) : Reachable s → Reachable (resume s)
  | togglePause (s : GameState) : Reachable s → Reachable (togglePause s)
  | goToMenu (s : GameState) : Reachable s → Reachable (goToMenu s)
  | setGridSize (s : GameState) (w h : Nat) :
      Reachable s → Reachable (setGridSize w h s)

/-! ### Helper lemmas -/

theorem toUint32_lt (z : Int) : toUint32 z < 4294967296 := by
  unfold toUint32
  have h1 : 0 ≤ z % 4294967296 := Int.emod_nonneg z (by decide)
  have h2 : z % 4294967296 < 4294967296 := Int.emod_lt_of_pos z (by decide)
  omega

theorem mulberry32_lt (t0 : Nat) (h : t0 < 4294967296) : mulberry32 t0 < 4294967296 := by
  unfold mulberry32
  have e : (4294967296 : Nat) = 2 ^ 32 := by decide
  have hshift : ∀ a k : Nat, a < 4294967296 → a >>> k < 4294967296 := by
    intro a k ha
    calc a >>> k ≤ a := by
          rw [Nat.shiftRight_eq_div_pow]; exact Nat.div_le_self a (2 ^ k)
      _ < 4294967296 := ha
  have h1 : t0 ^^^ (t0 >>> 15) < 4294967296 := by
    rw [e] at h ⊢
    exact Nat.xor_lt_two_pow h (by rw [← e]; exact hshift _ _ (e ▸ h))
  have h2 : (t0 ^^^ t0 >>> 15) * (t0 ||| 1) % 4294967296 < 4294967296 :=
    Nat.mod_lt _ (by decide)
  set t2 := (t0 ^^^ t0 >>> 15) * (t0 ||| 1) % 4294967296 with ht2
  have h3 : t2 ^^^ (t2 + (t2 ^^^ t2 >>> 7) * (t2 ||| 61) % 4294967296) % 4294967296 <
      4294967296 := by
    rw [e]
    exact Nat.xor_lt_two_pow (e ▸ h2) (e ▸ Nat.mod_lt _ (by decide))
  set t3 := t2 ^^^ (t2 + (t2 ^^^ t2 >>> 7) * (t2 ||| 61) % 4294967296) % 4294967296 with ht3
  rw [e]
  exact Nat.xor_lt_two_pow (e ▸ h3) (e ▸ hshift _ _ h3)

theorem rngRaw_lt (seed : Int) : (SeededRNG.next seed).1 < 4294967296 :=
  mulberry32_lt _ (toUint32_lt _)

/-- For positive `w`, `Int.tmod` (JS `%`) stays strictly above `-w`. -/
theorem neg_lt_tmod_of_pos (x : Int) {w : Int} (hw : 0 < w) : -w < x.tmod w := by
  cases x with
  | ofNat m =>
    have h0 : 0 ≤ (Int.ofNat m).tmod w := Int.tmod_nonneg w (Int.ofNat_nonneg m)
    omega
  | negSucc m =>
    cases w with
    | ofNat n =>
      cases n with
      | zero => exact absurd hw (by decide)
      | succ k =>
        have hval : (Int.negSucc m).tmod (Int.ofNat (k + 1)) =
            -(((m + 1) % (k + 1) : Nat) : Int) := rfl
        have hlt : (m + 1) % (k + 1) < k + 1 := Nat.mod_lt _ (Nat.succ_pos k)
        have hcast : (Int.ofNat (k + 1)) = ((k + 1 : Nat) : Int) := rfl
        rw [hval, hcast]
        omega
    | negSucc n =>
      have : Int.negSucc n < 0 := Int.negSucc_lt_zero n
      omega

/-- The JS double-remainder wrap `((x % w) + w) % w` is the floored modulo. -/
theorem tmod_wrap_eq_emod (x w : Int) (hw : 0 < w) : (x.tmod w + w).tmod w = x % w := by
  have h1 : -w < x.tmod w := neg_lt_tmod_of_pos x hw
  have h0 : 0 ≤ x.tmod w + w := by omega
  rw [Int.tmod_eq_emod h0 (Int.le_of_lt hw)]
  have hd : x.tmod w = x - w * x.tdiv w := Int.tmod_def x w
  rw [hd]
  have hr : x - w * x.tdiv w + w = x + w * (1 - x.tdiv w) := by ring
  rw [hr, Int.add_mul_emod_self_left]

/-- The full-grid cell list in the source's traversal order
(`x` outer, `y` inner: column-major). -/
def gridCellsColMajor (w h : Nat) : List Vector2 :=
  (List.range w).flatMap fun (x : Nat) =>
    (List.range h).map fun (y : Nat) => ⟨(x : Int), (y : Int)⟩

/-- Modelled from the spec (4.2): the row-major full-grid traversal the
spec's "stable ordering (row-major)" sentence describes — all of row
`y = 0` in increasing `x`, then row `y = 1`, and so on. -/
def rowMajorCells (w h : Nat) : List Vector2 :=
  (List.range h).flatMap fun (y : Nat) =>
    (List.range w).map fun (x : Nat) => ⟨(x : Int), (y : Int)⟩

/-- Modelled from the spec (4.2): `getEmptyCells` as the spec's words
describe it — the unoccupied cells in row-major order. -/
def rowMajorEmptyCells (w h : Nat) (occupied : List Vector2) : List Vector2 :=
  (rowMajorCells w h).filter fun p => !occupiedSetHas occupied p.x p.y

theorem occupiedSetHas_iff (occ : List Vector2) (p : Vector2) :
    occupiedSetHas occ p.x p.y = true ↔ p ∈ occ := by
  unfold occupiedSetHas
  rw [List.any_eq_true]
  constructor
  · rintro ⟨q, hq, hqe⟩
    have hx : q.x = p.x ∧ q.y = p.y := by simpa using hqe
    have hqp : q = p := by
      cases q; cases p; simp_all
    rwa [hqp] at hq
  · intro hp
    refine ⟨p, hp, ?_⟩
    show (p.x == p.x && p.y == p.y) = true
    simp

theorem inner_filterMap_eq (occ : List Vector2) (x : Nat) (l : List Nat) :
    (l.filterMap fun (y : Nat) =>
        if occupiedSetHas occ (x : Int) (y : Int) then none
        else some (⟨(x : Int), (y : Int)⟩ : Vector2)) =
      (l.map fun (y : Nat) => (⟨(x : Int), (y : Int)⟩ : Vector2)).filter
        fun p => !occupiedSetHas occ p.x p.y := by
  induction l with
  | nil => rfl
  | cons a t ih =>
    simp only [List.filterMap_cons, List.map_cons, List.filter_cons]
    cases ho : occupiedSetHas occ (x : Int) (a : Int) with
    | true => simpa [ho] using ih
    | false => simpa [ho] using ih

theorem getEmptyCells_eq_filter (w h : Nat) (occ : List Vector2) :
    getEmptyCells w h occ =
      (gridCellsColMajor w h).filter fun p => !occupiedSetHas occ p.x p.y := by
  unfold getEmptyCells gridCellsColMajor
  rw [List.filter_flatMap]
  exact List.flatMap_congr fun x _ => inner_filterMap_eq occ x (List.range h)

theorem mem_gridCellsColMajor (w h : Nat) (p : Vector2) :
    p ∈ gridCellsColMajor w h ↔
      0 ≤ p.x ∧ p.x < (w : Int) ∧ 0 ≤ p.y ∧ p.y < (h : Int) := by
  unfold gridCellsColMajor
  simp only [List.mem_flatMap, List.mem_map, List.mem_range]
  constructor
  · rintro ⟨x, hx, y, hy, rfl⟩
    dsimp only
    refine ⟨?_, ?_, ?_, ?_⟩ <;> omega
  · rintro ⟨hx0, hxw, hy0, hyh⟩
    refine ⟨p.x.toNat, by omega, p.y.toNat, by omega, ?_⟩
    cases p with
    | mk px py =>
      dsimp only at hx0 hxw hy0 hyh ⊢
      congr 1 <;> omega

theorem nodup_gridCellsColMajor (w h : Nat) : (gridCellsColMajor w h).Nodup := by
  unfold gridCellsColMajor
  rw [List.nodup_flatMap]
  constructor
  · intro x _
    refine List.Nodup.map ?_ (List.nodup_range h)
    intro a b hab
    have hy : ((a : Nat) : Int) = ((b : Nat) : Int) := by
      have := congrArg Vector2.y hab
      simpa using this
    exact_mod_cast hy
  · have hpw : (List.range w).Pairwise (· < ·) := List.pairwise_lt_range w
    refine hpw.imp ?_
    intro a b hlt
    intro q hqa hqb
    simp only [List.mem_map, List.mem_range] at hqa hqb
    obtain ⟨ya, hya, rfl⟩ := hqa
    obtain ⟨yb, hyb, hq⟩ := hqb
    have hx : ((b : Nat) : Int) = ((a : Nat) : Int) := by
      have := congrArg Vector2.x hq
      simpa using this
    omega

theorem length_gridCellsColMajor (w h : Nat) :
    (gridCellsColMajor w h).length = w * h := by
  induction w with
  | zero => simp [gridCellsColMajor]
  | succ n ih =>
    unfold gridCellsColMajor at ih ⊢
    rw [List.range_succ, List.flatMap_append, List.length_append, ih]
    simp [Nat.succ_mul]

/-! ### Claim theorems -/

set_option maxRecDepth 8192 in
/-- C1: PRNG determinism.  The internal state and the output stream of a
`SeededRNG` are functions of the constructor seed alone, so two instances
built from the same seed (numeric or string) have equal internal states and
equal `next()` outputs at every step — in this pure embedding the
hyperproperty holds definitionally, which is recorded by the first
conjunct.  The string seed `daily-20240115` hashes to the concrete integer
1496713703, so any two instances built from it start, and stay, in the same
state. -/
theorem c1_prng_determinism :
    (∀ (s : RNGSeedInput) (n : Nat),
      rngState (SeededRNG.create s) n = rngState (SeededRNG.create s) n ∧
      rngOutput (SeededRNG.create s) n = rngOutput (SeededRNG.create s) n) ∧
    hashString dailyCodes20240115 = 1496713703 ∧
    SeededRNG.create (.str dailyCodes20240115) = 1496713703 :=
  ⟨fun _ _ => ⟨rfl, rfl⟩, by decide, by decide⟩

/-- C6 (counterexample): `getEmptyCells` does not return the grid in
row-major order.  On an empty 2×2 board it yields
`(0,0), (0,1), (1,0), (1,1)` — both cells of column `x = 0` first — while
the row-major order of the same cells is `(0,0), (1,0), (0,1), (1,1)`. -/
theorem c6_row_major_counterexample :
    getEmptyCells 2 2 [] ≠ rowMajorEmptyCells 2 2 [] ∧
    getEmptyCells 2 2 [] = [⟨0, 0⟩, ⟨0, 1⟩, ⟨1, 0⟩, ⟨1, 1⟩] ∧
    rowMajorEmptyCells 2 2 [] = [⟨0, 0⟩, ⟨1, 0⟩, ⟨0, 1⟩, ⟨1, 1⟩] := by
  decide

/-- C6 (amended): for every width, height and occupied list,
`getEmptyCells` returns exactly the unoccupied cells of the grid, in
column-major order — all cells of column `x = 0` in increasing `y`, then
column `x = 1`, and so on (the source iterates `x` in the outer loop). -/
theorem c6_getEmptyCells_column_major (w h : Nat) (occupied : List Vector2) :
    getEmptyCells w h occupied =
      (gridCellsColMajor w h).filter (fun p => !occupiedSetHas occupied p.x p.y) ∧
    ∀ p : Vector2, p ∈ getEmptyCells w h occupied ↔
      ((0 ≤ p.x ∧ p.x < (w : Int) ∧ 0 ≤ p.y ∧ p.y < (h : Int)) ∧ p ∉ occupied) := by
  refine ⟨getEmptyCells_eq_filter w h occupied, ?_⟩
  intro p
  rw [getEmptyCells_eq_filter, List.mem_filter, mem_gridCellsColMajor]
  constructor
  · rintro ⟨hg, hocc⟩
    refine ⟨hg, fun hmem => ?_⟩
    have hhas := (occupiedSetHas_iff occupied p).2 hmem
    rw [hhas] at hocc
    cases hocc
  · rintro ⟨hg, hnot⟩
    refine ⟨hg, ?_⟩
    have hfalse : occupiedSetHas occupied p.x p.y = false := by
      cases hcase : occupiedSetHas occupied p.x p.y with
      | false => rfl
      | true => exact absurd ((occupiedSetHas_iff occupied p).1 hcase) hnot
    rw [hfalse]
    rfl

/-- C7 (counterexample): `isFoodValid` tests `food.expiresAt && ...` with JS
number truthiness, so a food whose `expiresAt` is set to `0` is reported
valid even at a later time `now = 1`, where the claim requires `false`. -/
theorem c7_isFoodValid_counterexample :
    ({ x := 0, y := 0, type := .special, spawnTime := 0, expiresAt := some 0 } : Food).expiresAt
        = some 0 ∧
    (1 : Int) > 0 ∧
    isFoodValid { x := 0, y := 0, type := .special, spawnTime := 0, expiresAt := some 0 } 1
        = true := by
  decide

/-- C7 (amended): `isFoodValid food now` returns `false` if and only if
`expiresAt` is set to a truthy (nonzero) value and `now > expiresAt`. -/
theorem c7_isFoodValid_iff (food : Food) (now : Int) :
    isFoodValid food now = false ↔
      ∃ e, food.expiresAt = some e ∧ e ≠ 0 ∧ now > e := by
  unfold isFoodValid
  cases hf : food.expiresAt with
  | none => simp
  | some e =>
    dsimp only
    constructor
    · intro hfalse
      by_cases hc : e ≠ 0 ∧ now > e
      · exact ⟨e, rfl, hc.1, hc.2⟩
      · rw [if_neg hc] at hfalse
        cases hfalse
    · rintro ⟨e2, he2, hne, hgt⟩
      cases he2
      rw [if_pos ⟨hne, hgt⟩]

/-- C8: `wrapPosition` computes the floored modulo on each axis, so for
positive grid dimensions the result lies in `[0, w) × [0, h)` and negative
coordinates wrap to the opposite edge; in particular
`wrapPosition {x:-1, y:5} 20 15 = {x:19, y:5}` and
`wrapPosition {x:20, y:5} 20 15 = {x:0, y:5}`. -/
theorem c8_wrapPosition_floored_modulo :
    (∀ (p : Vector2) (w h : Nat), 0 < w → 0 < h →
      wrapPosition p w h = ⟨p.x % (w : Int), p.y % (h : Int)⟩ ∧
      0 ≤ (wrapPosition p w h).x ∧ (wrapPosition p w h).x < (w : Int) ∧
      0 ≤ (wrapPosition p w h).y ∧ (wrapPosition p w h).y < (h : Int)) ∧
    wrapPosition ⟨-1, 5⟩ 20 15 = ⟨19, 5⟩ ∧
    wrapPosition ⟨20, 5⟩ 20 15 = ⟨0, 5⟩ := by
  refine ⟨?_, by decide, by decide⟩
  intro p w h hw hh
  have hwI : (0 : Int) < (w : Int) := by exact_mod_cast hw
  have hhI : (0 : Int) < (h : Int) := by exact_mod_cast hh
  have ex : wrapPosition p w h = ⟨p.x % (w : Int), p.y % (h : Int)⟩ := by
    unfold wrapPosition
    rw [tmod_wrap_eq_emod _ _ hwI, tmod_wrap_eq_emod _ _ hhI]
  refine ⟨ex, ?_⟩
  rw [ex]
  exact ⟨Int.emod_nonneg _ (by omega), Int.emod_lt_of_pos _ hwI,
    Int.emod_nonneg _ (by omega), Int.emod_lt_of_pos _ hhI⟩

/-- C8 witness: the general statement applied at `{x:-1, y:5}` on a 20×15
grid. -/
theorem c8_wrapPosition_witness :
    wrapPosition ⟨-1, 5⟩ 20 15 = ⟨(-1 : Int) % 20, (5 : Int) % 15⟩ :=
  (c8_wrapPosition_floored_modulo.1 ⟨-1, 5⟩ 20 15 (by decide) (by decide)).1

theorem length_filter_pair (l : List Vector2) (f : Vector2 → Bool) :
    (l.filter fun p => !f p).length + (l.filter f).length = l.length := by
  induction l with
  | nil => rfl
  | cons a t ih =>
    cases hf : f a <;> simp [List.filter_cons, hf] <;> omega

theorem emptyCells_length_add_card (w h : Nat) (occ : List Vector2)
    (hsub : ∀ q ∈ occ, 0 ≤ q.x ∧ q.x < (w : Int) ∧ 0 ≤ q.y ∧ q.y < (h : Int)) :
    (getEmptyCells w h occ).length + occ.toFinset.card = w * h := by
  rw [getEmptyCells_eq_filter]
  have hcard : ((gridCellsColMajor w h).filter
      fun p => occupiedSetHas occ p.x p.y).length = occ.toFinset.card := by
    have hnd : ((gridCellsColMajor w h).filter
        fun p => occupiedSetHas occ p.x p.y).Nodup :=
      (nodup_gridCellsColMajor w h).filter _
    rw [← List.toFinset_card_of_nodup hnd]
    congr 1
    ext q
    simp only [List.mem_toFinset, List.mem_filter]
    constructor
    · rintro ⟨_, hocc⟩
      exact (occupiedSetHas_iff occ q).1 hocc
    · intro hq
      refine ⟨?_, (occupiedSetHas_iff occ q).2 hq⟩
      rw [mem_gridCellsColMajor]
      exact hsub q hq
  rw [← hcard, length_filter_pair, length_gridCellsColMajor]

theorem spawnFood_pos_mem (seed : Int) (emp : List Vector2) (hne : emp.length ≠ 0) :
    (SeededRNG.pick seed emp).1 ∈ emp := by
  have hraw : (SeededRNG.next seed).1 < 4294967296 := rngRaw_lt seed
  have hidx : (SeededRNG.next seed).1 * emp.length / 4294967296 < emp.length := by
    have hlen : 0 < emp.length := Nat.pos_of_ne_zero hne
    rw [Nat.div_lt_iff_lt_mul (by decide)]
    calc (SeededRNG.next seed).1 * emp.length
        < 4294967296 * emp.length := (Nat.mul_lt_mul_right hlen).2 hraw
      _ = emp.length * 4294967296 := Nat.mul_comm _ _
  show emp.getD ((SeededRNG.next seed).1 * emp.length / 4294967296) ⟨0, 0⟩ ∈ emp
  rw [List.getD_eq_getElem?_getD, List.getElem?_eq_getElem hidx, Option.getD_some]
  exact List.getElem_mem hidx

theorem spawnFood_some_pos (seed : Int) (snake : List SnakeSegment) (cfg : SpawnConfig)
    (score : Nat) (now : Int) (f : Food)
    (hf : (spawnFood seed snake cfg score now).1 = some f) :
    (⟨f.x, f.y⟩ : Vector2) ∈ getEmptyCells cfg.gridWidth cfg.gridHeight
      (snake.map fun seg => (⟨seg.x, seg.y⟩ : Vector2)) := by
  unfold spawnFood at hf
  by_cases hz : (getEmptyCells cfg.gridWidth cfg.gridHeight
      (snake.map fun seg => (⟨seg.x, seg.y⟩ : Vector2))).length = 0
  · rw [if_pos hz] at hf
    cases hf
  · rw [if_neg hz] at hf
    have hf2 := Option.some.inj hf
    have hmem := spawnFood_pos_mem seed _ hz
    rw [← hf2]
    exact hmem

/-- C2: `spawnFood` exclusivity.  For a snake occupying cells inside a
positive `w×h` grid, the spawned food (if any) never lies on an occupied
cell, and the result is `none` exactly when the number of distinct occupied
cells equals `w*h`. -/
theorem c2_spawnFood_exclusivity (seed : Int) (snake : List SnakeSegment)
    (cfg : SpawnConfig) (score : Nat) (now : Int)
    (hw : 0 < cfg.gridWidth) (hh : 0 < cfg.gridHeight)
    (hsub : ∀ seg ∈ snake, 0 ≤ seg.x ∧ seg.x < (cfg.gridWidth : Int) ∧
      0 ≤ seg.y ∧ seg.y < (cfg.gridHeight : Int)) :
    ((spawnFood seed snake cfg score now).1 = none ↔
      (snake.map fun seg => (⟨seg.x, seg.y⟩ : Vector2)).toFinset.card =
        cfg.gridWidth * cfg.gridHeight) ∧
    ∀ f, (spawnFood seed snake cfg score now).1 = some f →
      ∀ seg ∈ snake, ¬(f.x = seg.x ∧ f.y = seg.y) := by
  have hsub2 : ∀ q ∈ snake.map fun seg => (⟨seg.x, seg.y⟩ : Vector2),
      0 ≤ q.x ∧ q.x < (cfg.gridWidth : Int) ∧ 0 ≤ q.y ∧ q.y < (cfg.gridHeight : Int) := by
    intro q hq
    rw [List.mem_map] at hq
    obtain ⟨seg, hseg, rfl⟩ := hq
    exact hsub seg hseg
  have hlen := emptyCells_length_add_card cfg.gridWidth cfg.gridHeight
    (snake.map fun seg => (⟨seg.x, seg.y⟩ : Vector2)) hsub2
  constructor
  · unfold spawnFood
    by_cases hz : (getEmptyCells cfg.gridWidth cfg.gridHeight
        (snake.map fun seg => (⟨seg.x, seg.y⟩ : Vector2))).length = 0
    · rw [if_pos hz]
      constructor
      · intro _
        omega
      · intro _
        rfl
    · rw [if_neg hz]
      constructor
      · intro hsome
        cases hsome
      · intro hcard
        exfalso
        omega
  · intro f hf seg hseg hcoll
    have hmem := spawnFood_some_pos seed snake cfg score now f hf
    rw [getEmptyCells_eq_filter, List.mem_filter] at hmem
    have hin : (⟨f.x, f.y⟩ : Vector2) ∈ snake.map fun sg => (⟨sg.x, sg.y⟩ : Vector2) := by
      rw [List.mem_map]
      refine ⟨seg, hseg, ?_⟩
      rw [← hcoll.1, ← hcoll.2]
    have htrue : occupiedSetHas (snake.map fun sg => (⟨sg.x, sg.y⟩ : Vector2)) f.x f.y
        = true := by
      simpa using (occupiedSetHas_iff _ (⟨f.x, f.y⟩ : Vector2)).2 hin
    have hfalse : occupiedSetHas (snake.map fun sg => (⟨sg.x, sg.y⟩ : Vector2)) f.x f.y
        = false := by
      simpa using hmem.2
    rw [htrue] at hfalse
    cases hfalse

/-- C2 witness: a single-segment snake at `(0,0)` on a 2×2 grid. -/
theorem c2_spawnFood_exclusivity_witness :
    ((spawnFood 0 [⟨0, 0, 0, 0⟩]
        { DEFAULT_CONFIG with gridWidth := 2, gridHeight := 2 } 0 0).1 = none ↔
      (([⟨0, 0, 0, 0⟩] : List SnakeSegment).map
        fun seg => (⟨seg.x, seg.y⟩ : Vector2)).toFinset.card = 2 * 2) ∧
    ∀ f, (spawnFood 0 [⟨0, 0, 0, 0⟩]
        { DEFAULT_CONFIG with gridWidth := 2, gridHeight := 2 } 0 0).1 = some f →
      ∀ seg ∈ ([⟨0, 0, 0, 0⟩] : List SnakeSegment), ¬(f.x = seg.x ∧ f.y = seg.y) :=
  c2_spawnFood_exclusivity 0 [⟨0, 0, 0, 0⟩]
    { DEFAULT_CONFIG with gridWidth := 2, gridHeight := 2 } 0 0
    (by decide) (by decide) (by decide)

/-- C4: the food-type roll is consumed unconditionally.  Whenever the board
is not full, `spawnFood` advances the PRNG by exactly two draws (position
pick plus type roll) — the final seed is `seed + 2·0x6d2b79f5` and is the
same function of the input seed for every score — the type is `normal`
whenever `currentScore ≤ 30`, and for `currentScore > 30` the type is chosen
from the second draw by the cumulative bands special / speed / slow with
remainder normal. -/
theorem c4_type_roll_consumed (seed : Int) (snake : List SnakeSegment)
    (cfg : SpawnConfig) (score : Nat) (now : Int)
    (hne : (getEmptyCells cfg.gridWidth cfg.gridHeight
      (snake.map fun seg => (⟨seg.x, seg.y⟩ : Vector2))).length ≠ 0) :
    (spawnFood seed snake cfg score now).2 = seed + 2 * 1831565813 ∧
    (∀ score2 : Nat, (spawnFood seed snake cfg score now).2 =
      (spawnFood seed snake cfg score2 now).2) ∧
    ∀ f, (spawnFood seed snake cfg score now).1 = some f →
      (score ≤ 30 → f.type = .normal) ∧
      (30 < score →
        f.type =
          (if ((rngOutput seed 1 : ℚ) / 4294967296) < cfg.specialChance then .special
           else if ((rngOutput seed 1 : ℚ) / 4294967296) <
              cfg.specialChance + cfg.speedChance then .speed
           else if ((rngOutput seed 1 : ℚ) / 4294967296) <
              cfg.specialChance + cfg.speedChance + cfg.slowChance then .slow
           else .normal)) := by
  have hseed2 : ∀ sc : Nat, (spawnFood seed snake cfg sc now).2 = seed + 2 * 1831565813 := by
    intro sc
    unfold spawnFood
    rw [if_neg hne]
    show (SeededRNG.next (SeededRNG.pick seed _).2).2 = seed + 2 * 1831565813
    unfold SeededRNG.pick SeededRNG.next
    show seed + 0x6d2b79f5 + 0x6d2b79f5 = seed + 2 * 1831565813
    ring
  refine ⟨hseed2 score, fun score2 => by rw [hseed2 score, hseed2 score2], ?_⟩
  intro f hf
  unfold spawnFood at hf
  rw [if_neg hne] at hf
  have hf2 := Option.some.inj hf
  constructor
  · intro hle
    rw [← hf2]
    show (if score > 30 then _ else FoodType.normal) = FoodType.normal
    rw [if_neg (by omega)]
  · intro hgt
    rw [← hf2]
    show (if score > 30 then _ else FoodType.normal) = _
    rw [if_pos hgt]
    rfl

set_option maxRecDepth 32768 in
/-- C4 witness: the empty snake on the default 20×20 grid at seed 0,
score 0. -/
theorem c4_type_roll_consumed_witness :
    (spawnFood 0 [] DEFAULT_CONFIG 0 0).2 = 0 + 2 * 1831565813 ∧
    (∀ score2 : Nat, (spawnFood 0 [] DEFAULT_CONFIG 0 0).2 =
      (spawnFood 0 [] DEFAULT_CONFIG score2 0).2) ∧
    ∀ f, (spawnFood 0 [] DEFAULT_CONFIG 0 0).1 = some f →
      ((0 : Nat) ≤ 30 → f.type = .normal) ∧
      (30 < (0 : Nat) →
        f.type =
          (if ((rngOutput 0 1 : ℚ) / 4294967296) < DEFAULT_CONFIG.specialChance then .special
           else if ((rngOutput 0 1 : ℚ) / 4294967296) <
              DEFAULT_CONFIG.specialChance + DEFAULT_CONFIG.speedChance then .speed
           else if ((rngOutput 0 1 : ℚ) / 4294967296) <
              DEFAULT_CONFIG.specialChance + DEFAULT_CONFIG.speedChance +
                DEFAULT_CONFIG.slowChance then .slow
           else .normal)) :=
  c4_type_roll_consumed 0 [] DEFAULT_CONFIG 0 0 (by decide)

/-! ### Engine step lemmas -/

theorem comboStep_fields (now : Int) (s : GameState) :
    (comboStep now s).phase = s.phase ∧ (comboStep now s).mode = s.mode ∧
    (comboStep now s).snake = s.snake ∧ (comboStep now s).direction = s.direction ∧
    (comboStep now s).directionBuffer = s.directionBuffer ∧
    (comboStep now s).gracePeriodTicks = s.gracePeriodTicks ∧
    (comboStep now s).tickRate = s.tickRate ∧
    (comboStep now s).baseTickRate = s.baseTickRate ∧
    (comboStep now s).gridWidth = s.gridWidth ∧
    (comboStep now s).gridHeight = s.gridHeight ∧
    (comboStep now s).food = s.food := by
  unfold comboStep
  split <;> exact ⟨rfl, rfl, rfl, rfl, rfl, rfl, rfl, rfl, rfl, rfl, rfl⟩

theorem foodExpiryStep_fields (now : Int) (s : GameState) :
    (foodExpiryStep now s).phase = s.phase ∧ (foodExpiryStep now s).mode = s.mode ∧
    (foodExpiryStep now s).snake = s.snake ∧
    (foodExpiryStep now s).direction = s.direction ∧
    (foodExpiryStep now s).directionBuffer = s.directionBuffer ∧
    (foodExpiryStep now s).gracePeriodTicks = s.gracePeriodTicks ∧
    (foodExpiryStep now s).tickRate = s.tickRate ∧
    (foodExpiryStep now s).baseTickRate = s.baseTickRate ∧
    (foodExpiryStep now s).gridWidth = s.gridWidth ∧
    (foodExpiryStep now s).gridHeight = s.gridHeight := by
  unfold foodExpiryStep
  split
  · split
    · exact ⟨rfl, rfl, rfl, rfl, rfl, rfl, rfl, rfl, rfl, rfl⟩
    · exact ⟨rfl, rfl, rfl, rfl, rfl, rfl, rfl, rfl, rfl, rfl⟩
  · exact ⟨rfl, rfl, rfl, rfl, rfl, rfl, rfl, rfl, rfl, rfl⟩

theorem applyBufferStep_fields (s : GameState) :
    (applyBufferStep s).phase = s.phase ∧ (applyBufferStep s).mode = s.mode ∧
    (applyBufferStep s).snake = s.snake ∧
    (applyBufferStep s).directionBuffer = s.directionBuffer.tail ∧
    (applyBufferStep s).gracePeriodTicks = s.gracePeriodTicks ∧
    (applyBufferStep s).tickRate = s.tickRate ∧
    (applyBufferStep s).baseTickRate = s.baseTickRate ∧
    (applyBufferStep s).gridWidth = s.gridWidth ∧
    (applyBufferStep s).gridHeight = s.gridHeight ∧
    (applyBufferStep s).food = s.food := by
  unfold applyBufferStep
  cases hbuf : s.directionBuffer with
  | nil =>
    dsimp only
    refine ⟨rfl, rfl, rfl, ?_, rfl, rfl, rfl, rfl, rfl, rfl⟩
    rw [hbuf]
    rfl
  | cons d rest =>
    dsimp only
    split
    · exact ⟨rfl, rfl, rfl, rfl, rfl, rfl, rfl, rfl, rfl, rfl⟩
    · exact ⟨rfl, rfl, rfl, rfl, rfl, rfl, rfl, rfl, rfl, rfl⟩

theorem snapshotStep_fields (s : GameState) :
    (snapshotStep s).phase = s.phase ∧ (snapshotStep s).mode = s.mode ∧
    (snapshotStep s).direction = s.direction ∧
    (snapshotStep s).directionBuffer = s.directionBuffer ∧
    (snapshotStep s).gracePeriodTicks = s.gracePeriodTicks ∧
    (snapshotStep s).tickRate = s.tickRate ∧
    (snapshotStep s).baseTickRate = s.baseTickRate ∧
    (snapshotStep s).gridWidth = s.gridWidth ∧
    (snapshotStep s).gridHeight = s.gridHeight ∧
    (snapshotStep s).food = s.food ∧
    positions (snapshotStep s).snake = positions s.snake ∧
    ((snapshotStep s).snake = [] ↔ s.snake = []) := by
  refine ⟨rfl, rfl, rfl, rfl, rfl, rfl, rfl, rfl, rfl, rfl, ?_, ?_⟩
  · unfold snapshotStep positions
    rw [List.map_map]
    rfl
  · unfold snapshotStep
    simp

theorem preMove_fields (now : Int) (s : GameState) :
    (preMove now s).phase = s.phase ∧ (preMove now s).mode = s.mode ∧
    (preMove now s).gridWidth = s.gridWidth ∧
    (preMove now s).gridHeight = s.gridHeight ∧
    (preMove now s).gracePeriodTicks = s.gracePeriodTicks ∧
    (preMove now s).tickRate = s.tickRate ∧
    (preMove now s).baseTickRate = s.baseTickRate ∧
    positions (preMove now s).snake = positions s.snake ∧
    ((preMove now s).snake = [] ↔ s.snake = []) ∧
    (preMove now s).directionBuffer = s.directionBuffer.tail := by
  unfold preMove
  obtain ⟨c1, c2, c3, c4, c5, c6, c7, c8, c9, c10, c11⟩ := comboStep_fields now s
  obtain ⟨f1, f2, f3, f4, f5, f6, f7, f8, f9, f10⟩ :=
    foodExpiryStep_fields now (comboStep now s)
  obtain ⟨a1, a2, a3, a4, a5, a6, a7, a8, a9, a10⟩ :=
    applyBufferStep_fields (foodExpiryStep now (comboStep now s))
  obtain ⟨s1, s2, s3, s4, s5, s6, s7, s8, s9, s10, s11, s12⟩ :=
    snapshotStep_fields (applyBufferStep (foodExpiryStep now (comboStep now s)))
  refine ⟨?_, ?_, ?_, ?_, ?_, ?_, ?_, ?_, ?_, ?_⟩
  · rw [s1, a1, f1, c1]
  · rw [s2, a2, f2, c2]
  · rw [s8, a8, f9, c9]
  · rw [s9, a9, f10, c10]
  · rw [s5, a5, f6, c6]
  · rw [s6, a6, f7, c7]
  · rw [s7, a7, f8, c8]
  · rw [s11, a3, f3, c3]
  · rw [s12, a3, f3, c3]
  · rw [s4, a4, f5, c5]

theorem eatFood_fields (now : Int) (s : GameState) :
    (eatFood now s).phase = s.phase ∧ (eatFood now s).mode = s.mode ∧
    (eatFood now s).snake = s.snake ∧
    (eatFood now s).direction = s.direction ∧
    (eatFood now s).directionBuffer = s.directionBuffer ∧
    (eatFood now s).gracePeriodTicks = s.gracePeriodTicks ∧
    (eatFood now s).baseTickRate = s.baseTickRate ∧
    (eatFood now s).gridWidth = s.gridWidth ∧
    (eatFood now s).gridHeight = s.gridHeight := by
  unfold eatFood
  split
  · exact ⟨rfl, rfl, rfl, rfl, rfl, rfl, rfl, rfl, rfl⟩
  · exact ⟨rfl, rfl, rfl, rfl, rfl, rfl, rfl, rfl, rfl⟩

theorem eatTickRate_bounds (ft : FoodType) (sc : Nat) (t b : Int)
    (h50 : MIN_TICK_RATE ≤ t) (hle : t ≤ b) (hb : MIN_TICK_RATE ≤ b) :
    MIN_TICK_RATE ≤ eatTickRate ft sc t b ∧ eatTickRate ft sc t b ≤ b := by
  unfold eatTickRate MIN_TICK_RATE SPEED_INCREMENT_MS SPEED_INCREMENT_SCORE
  unfold MIN_TICK_RATE at h50 hb
  cases ft <;> dsimp only <;> split <;> omega

theorem eatFood_tickRate (now : Int) (s : GameState)
    (h50 : MIN_TICK_RATE ≤ s.tickRate) (hle : s.tickRate ≤ s.baseTickRate)
    (hb : MIN_TICK_RATE ≤ s.baseTickRate) :
    MIN_TICK_RATE ≤ (eatFood now s).tickRate ∧
    (eatFood now s).tickRate ≤ s.baseTickRate := by
  unfold eatFood
  split
  · exact ⟨h50, hle⟩
  · exact eatTickRate_bounds _ _ _ _ h50 hle hb

theorem computedNewHead_eq_none (s : GameState) :
    computedNewHead s = none ↔ s.snake = [] := by
  unfold computedNewHead
  cases s.snake <;> simp

theorem popTail_fields (s1 : GameState) :
    (popTail s1).phase = s1.phase ∧ (popTail s1).mode = s1.mode ∧
    (popTail s1).directionBuffer = s1.directionBuffer ∧
    (popTail s1).tickRate = s1.tickRate ∧
    (popTail s1).baseTickRate = s1.baseTickRate ∧
    (popTail s1).gridWidth = s1.gridWidth ∧
    (popTail s1).gridHeight = s1.gridHeight ∧
    (popTail s1).gracePeriodTicks = s1.gracePeriodTicks ∧
    (popTail s1).snake = s1.snake.dropLast :=
  ⟨rfl, rfl, rfl, rfl, rfl, rfl, rfl, rfl, rfl⟩

theorem resolveFood_fields (now : Int) (nh : Vector2) (s1 : GameState) :
    (resolveFood now nh s1).phase = s1.phase ∧
    (resolveFood now nh s1).mode = s1.mode ∧
    (resolveFood now nh s1).directionBuffer = s1.directionBuffer ∧
    (resolveFood now nh s1).baseTickRate = s1.baseTickRate ∧
    (resolveFood now nh s1).gridWidth = s1.gridWidth ∧
    (resolveFood now nh s1).gridHeight = s1.gridHeight ∧
    (resolveFood now nh s1).gracePeriodTicks = s1.gracePeriodTicks ∧
    ((resolveFood now nh s1).snake = s1.snake ∨
      (resolveFood now nh s1).snake = s1.snake.dropLast) := by
  unfold resolveFood
  split
  · split
    · obtain ⟨e1, e2, e3, _, e5, e6, e7, e8, e9⟩ := eatFood_fields now s1
      exact ⟨e1, e2, e5, e7, e8, e9, e6, Or.inl e3⟩
    · obtain ⟨p1, p2, p3, _, p5, p6, p7, p8, p9⟩ := popTail_fields s1
      exact ⟨p1, p2, p3, p5, p6, p7, p8, Or.inr p9⟩
  · obtain ⟨p1, p2, p3, _, p5, p6, p7, p8, p9⟩ := popTail_fields s1
    exact ⟨p1, p2, p3, p5, p6, p7, p8, Or.inr p9⟩

theorem resolveFood_tickRate (now : Int) (nh : Vector2) (s1 : GameState)
    (h50 : MIN_TICK_RATE ≤ s1.tickRate) (hle : s1.tickRate ≤ s1.baseTickRate)
    (hb : MIN_TICK_RATE ≤ s1.baseTickRate) :
    MIN_TICK_RATE ≤ (resolveFood now nh s1).tickRate ∧
    (resolveFood now nh s1).tickRate ≤ s1.baseTickRate := by
  unfold resolveFood
  split
  · split
    · exact eatFood_tickRate now s1 h50 hle hb
    · exact ⟨h50, hle⟩
  · exact ⟨h50, hle⟩

theorem graceAndCount_fields (s2 : GameState) :
    (graceAndCount s2).phase = s2.phase ∧ (graceAndCount s2).mode = s2.mode ∧
    (graceAndCount s2).directionBuffer = s2.directionBuffer ∧
    (graceAndCount s2).tickRate = s2.tickRate ∧
    (graceAndCount s2).baseTickRate = s2.baseTickRate ∧
    (graceAndCount s2).gridWidth = s2.gridWidth ∧
    (graceAndCount s2).gridHeight = s2.gridHeight ∧
    (graceAndCount s2).snake = s2.snake ∧
    (graceAndCount s2).gracePeriodTicks =
      (if 0 < s2.gracePeriodTicks then s2.gracePeriodTicks - 1
       else s2.gracePeriodTicks) := by
  unfold graceAndCount
  dsimp only
  split
  · exact ⟨rfl, rfl, rfl, rfl, rfl, rfl, rfl, rfl, rfl⟩
  · exact ⟨rfl, rfl, rfl, rfl, rfl, rfl, rfl, rfl, rfl⟩

theorem moveBranch_fields (now : Int) (nh : Vector2) (head : SnakeSegment)
    (s : GameState) (hne : s.snake ≠ []) :
    (moveBranch now nh head s).phase = s.phase ∧
    (moveBranch now nh head s).mode = s.mode ∧
    (moveBranch now nh head s).directionBuffer = s.directionBuffer ∧
    (moveBranch now nh head s).baseTickRate = s.baseTickRate ∧
    (moveBranch now nh head s).gridWidth = s.gridWidth ∧
    (moveBranch now nh head s).gridHeight = s.gridHeight ∧
    (moveBranch now nh head s).gracePeriodTicks =
      (if 0 < s.gracePeriodTicks then s.gracePeriodTicks - 1
       else s.gracePeriodTicks) ∧
    (moveBranch now nh head s).snake ≠ [] := by
  unfold moveBranch
  dsimp only
  set s1 : GameState := { s with snake :=
    { x := nh.x, y := nh.y, prevX := head.x, prevY := head.y } :: s.snake } with hs1
  obtain ⟨r1, r2, r3, r4, r5, r6, r7, r8⟩ := resolveFood_fields now nh s1
  obtain ⟨g1, g2, g3, g4, g5, g6, g7, g8, g9⟩ :=
    graceAndCount_fields (resolveFood now nh s1)
  have hs1snake : s1.snake ≠ [] := List.cons_ne_nil _ _
  refine ⟨?_, ?_, ?_, ?_, ?_, ?_, ?_, ?_⟩
  · rw [g1, r1]
  · rw [g2, r2]
  · rw [g3, r3]
  · rw [g5, r4]
  · rw [g6, r5]
  · rw [g7, r6]
  · rw [g9, r7]
  · rw [g8]
    cases r8 with
    | inl h => rw [h]; exact hs1snake
    | inr h =>
      rw [h]
      have hlen : (s1.snake.dropLast).length = s.snake.length := by
        rw [hs1]
        simp [List.length_dropLast]
      intro hcon
      rw [hcon] at hlen
      exact hne (List.length_eq_zero.1 hlen.symm)

theorem moveBranch_tickRate (now : Int) (nh : Vector2) (head : SnakeSegment)
    (s : GameState) (h50 : MIN_TICK_RATE ≤ s.tickRate)
    (hle : s.tickRate ≤ s.baseTickRate) (hb : MIN_TICK_RATE ≤ s.baseTickRate) :
    MIN_TICK_RATE ≤ (moveBranch now nh head s).tickRate ∧
    (moveBranch now nh head s).tickRate ≤ s.baseTickRate := by
  unfold moveBranch
  dsimp only
  set s1 : GameState := { s with snake :=
    { x := nh.x, y := nh.y, prevX := head.x, prevY := head.y } :: s.snake } with hs1
  obtain ⟨_, _, _, g4, _, _, _, _, _⟩ := graceAndCount_fields (resolveFood now nh s1)
  rw [g4]
  exact resolveFood_tickRate now nh s1 h50 hle hb

theorem popTail_direction (s1 : GameState) : (popTail s1).direction = s1.direction := rfl

theorem graceAndCount_direction (s2 : GameState) :
    (graceAndCount s2).direction = s2.direction := by
  unfold graceAndCount
  dsimp only
  split <;> rfl

theorem resolveFood_direction (now : Int) (nh : Vector2) (s1 : GameState) :
    (resolveFood now nh s1).direction = s1.direction := by
  unfold resolveFood
  split
  · split
    · exact (eatFood_fields now s1).2.2.2.1
    · rfl
  · rfl

theorem moveBranch_direction (now : Int) (nh : Vector2) (head : SnakeSegment)
    (s : GameState) : (moveBranch now nh head s).direction = s.direction := by
  unfold moveBranch
  dsimp only
  rw [graceAndCount_direction, resolveFood_direction]

theorem moveStep_direction (now : Int) (s : GameState) :
    (moveStep now s).direction = s.direction := by
  unfold moveStep
  cases hnh : computedNewHead s with
  | none => rfl
  | some nh =>
    dsimp only
    split
    · split <;> rfl
    · cases hsn : s.snake with
      | nil => rfl
      | cons head tl => exact moveBranch_direction now nh head s

theorem moveStep_buffer (now : Int) (s : GameState) :
    (moveStep now s).directionBuffer = s.directionBuffer := by
  unfold moveStep
  cases hnh : computedNewHead s with
  | none => rfl
  | some nh =>
    dsimp only
    split
    · split <;> rfl
    · cases hsn : s.snake with
      | nil => rfl
      | cons head tl =>
        exact (moveBranch_fields now nh head s
          (by rw [hsn]; exact List.cons_ne_nil _ _)).2.2.1

theorem moveStep_absorb (now : Int) (s : GameState) (hcol : collides s = true)
    (hg : 0 < s.gracePeriodTicks) :
    moveStep now s = { s with gracePeriodTicks := s.gracePeriodTicks - 1 } := by
  unfold moveStep
  unfold collides at hcol
  cases hnh : computedNewHead s with
  | none =>
    rw [hnh] at hcol
    cases hcol
  | some nh =>
    rw [hnh] at hcol
    dsimp only at hcol ⊢
    rw [if_pos hcol, if_pos (Or.inl hg)]

theorem moveStep_grace_step (now : Int) (s : GameState) (hne : s.snake ≠ [])
    (hg : 0 < s.gracePeriodTicks) :
    (moveStep now s).phase = s.phase ∧
    (moveStep now s).gracePeriodTicks = s.gracePeriodTicks - 1 ∧
    (moveStep now s).snake ≠ [] := by
  unfold moveStep
  cases hnh : computedNewHead s with
  | none => exact absurd ((computedNewHead_eq_none s).1 hnh) hne
  | some nh =>
    dsimp only
    cases hcol : (checkWallCollision nh s.gridWidth s.gridHeight ||
        checkSelfCollision nh s.snake 1) with
    | true =>
      rw [if_pos rfl, if_pos (Or.inl hg)]
      exact ⟨rfl, rfl, hne⟩
    | false =>
      rw [if_neg (by decide)]
      cases hsn : s.snake with
      | nil => exact absurd hsn hne
      | cons head tl =>
        obtain ⟨m1, _, _, _, _, _, m7, m8⟩ := moveBranch_fields now nh head s hne
        exact ⟨m1, by rw [m7, if_pos hg], m8⟩

theorem moveStep_tickRate (now : Int) (s : GameState)
    (h50 : MIN_TICK_RATE ≤ s.tickRate) (hle : s.tickRate ≤ s.baseTickRate)
    (hb : MIN_TICK_RATE ≤ s.baseTickRate) :
    MIN_TICK_RATE ≤ (moveStep now s).tickRate ∧
    (moveStep now s).tickRate ≤ (moveStep now s).baseTickRate ∧
    MIN_TICK_RATE ≤ (moveStep now s).baseTickRate := by
  unfold moveStep
  cases hnh : computedNewHead s with
  | none => exact ⟨h50, hle, hb⟩
  | some nh =>
    dsimp only
    split
    · split
      · exact ⟨h50, hle, hb⟩
      · exact ⟨h50, hle, hb⟩
    · cases hsn : s.snake with
      | nil => exact ⟨h50, hle, hb⟩
      | cons head tl =>
        have hne : s.snake ≠ [] := by
          rw [hsn]
          exact List.cons_ne_nil _ _
        obtain ⟨_, _, _, m4, _, _, _, _⟩ := moveBranch_fields now nh head s hne
        obtain ⟨mt1, mt2⟩ := moveBranch_tickRate now nh head s h50 hle hb
        refine ⟨mt1, ?_, ?_⟩
        · rw [m4]
          exact mt2
        · rw [m4]
          exact hb

theorem wrapPosition_no_wall (p : Vector2) (w h : Nat) (hw : 0 < w) (hh : 0 < h) :
    checkWallCollision (wrapPosition p w h) w h = false := by
  have hwI : (0 : Int) < (w : Int) := by exact_mod_cast hw
  have hhI : (0 : Int) < (h : Int) := by exact_mod_cast hh
  unfold checkWallCollision wrapPosition
  dsimp only
  rw [tmod_wrap_eq_emod _ _ hwI, tmod_wrap_eq_emod _ _ hhI]
  rw [decide_eq_false_iff_not]
  have h1 : 0 ≤ p.x % (w : Int) := Int.emod_nonneg _ (by omega)
  have h2 : p.x % (w : Int) < (w : Int) := Int.emod_lt_of_pos _ hwI
  have h3 : 0 ≤ p.y % (h : Int) := Int.emod_nonneg _ (by omega)
  have h4 : p.y % (h : Int) < (h : Int) := Int.emod_lt_of_pos _ hhI
  rintro (hc | hc | hc | hc) <;> omega

theorem moveStep_zen_phase (now : Int) (s : GameState) (hz : s.mode = .zen)
    (hw : 0 < s.gridWidth) (hh : 0 < s.gridHeight) :
    (moveStep now s).phase = s.phase := by
  unfold moveStep
  cases hnh : computedNewHead s with
  | none => rfl
  | some nh =>
    have hwall : checkWallCollision nh s.gridWidth s.gridHeight = false := by
      unfold computedNewHead at hnh
      cases hsn : s.snake with
      | nil =>
        rw [hsn] at hnh
        cases hnh
      | cons head tl =>
        rw [hsn] at hnh
        dsimp only at hnh
        rw [if_pos hz] at hnh
        have hnh2 : nh = wrapPosition (getNextHeadPosition ⟨head.x, head.y⟩
            (DIRECTION_VECTORS s.direction)) s.gridWidth s.gridHeight :=
          (Option.some.inj hnh).symm
        rw [hnh2]
        exact wrapPosition_no_wall _ _ _ hw hh
    dsimp only
    rw [hwall, Bool.false_or]
    cases hself : checkSelfCollision nh s.snake 1 with
    | true =>
      rw [if_pos rfl, if_pos (Or.inr ⟨hz, rfl⟩)]
    | false =>
      rw [if_neg (by decide)]
      cases hsn : s.snake with
      | nil => rfl
      | cons head tl =>
        exact (moveBranch_fields now nh head s
          (by rw [hsn]; exact List.cons_ne_nil _ _)).1

theorem tick_not_playing (now deltaMs : Int) (s : GameState)
    (hp : s.phase ≠ .playing) : tick now deltaMs s = s := by
  unfold tick
  rw [if_pos hp]

theorem tick_playing_eq (now deltaMs : Int) (s : GameState)
    (hp : s.phase = .playing) :
    tick now deltaMs s = moveStep now (preMove now s) := by
  unfold tick
  rw [if_neg (fun hc => hc hp)]

theorem applyBufferStep_direction (s : GameState) (d : Direction)
    (rest : List Direction) (hbuf : s.directionBuffer = d :: rest) :
    (applyBufferStep s).direction =
      if OPPOSITE_DIRECTION d ≠ s.direction then d else s.direction := by
  unfold applyBufferStep
  rw [hbuf]
  dsimp only
  split
  · rfl
  · rfl

theorem tick_buffer_tail (now deltaMs : Int) (s : GameState)
    (hp : s.phase = .playing) :
    (tick now deltaMs s).directionBuffer = s.directionBuffer.tail := by
  rw [tick_playing_eq now deltaMs s hp, moveStep_buffer]
  exact (preMove_fields now s).2.2.2.2.2.2.2.2.2

theorem tick_oldest_first (now deltaMs : Int) (s : GameState) (d : Direction)
    (rest : List Direction) (hp : s.phase = .playing)
    (hbuf : s.directionBuffer = d :: rest) :
    (tick now deltaMs s).direction =
      if OPPOSITE_DIRECTION d ≠ s.direction then d else s.direction := by
  rw [tick_playing_eq now deltaMs s hp, moveStep_direction]
  unfold preMove
  rw [(snapshotStep_fields _).2.2.1]
  obtain ⟨_, _, _, c4, c5, _, _, _, _, _, _⟩ := comboStep_fields now s
  obtain ⟨_, _, _, f4, f5, _, _, _, _, _⟩ := foodExpiryStep_fields now (comboStep now s)
  have hbuf2 : (foodExpiryStep now (comboStep now s)).directionBuffer = d :: rest := by
    rw [f5, c5, hbuf]
  rw [applyBufferStep_direction _ d rest hbuf2, f4, c4]

theorem tick_grace_step (now deltaMs : Int) (s : GameState)
    (hp : s.phase = .playing) (hne : s.snake ≠ [])
    (hg : 0 < s.gracePeriodTicks) :
    (tick now deltaMs s).phase = .playing ∧
    (tick now deltaMs s).snake ≠ [] ∧
    (tick now deltaMs s).gracePeriodTicks = s.gracePeriodTicks - 1 := by
  rw [tick_playing_eq now deltaMs s hp]
  obtain ⟨p1, _, _, _, p5, _, _, _, p9, _⟩ := preMove_fields now s
  have hne4 : (preMove now s).snake ≠ [] := fun hc => hne (p9.1 hc)
  have hg4 : 0 < (preMove now s).gracePeriodTicks := by
    rw [p5]
    exact hg
  obtain ⟨m1, m2, m3⟩ := moveStep_grace_step now (preMove now s) hne4 hg4
  refine ⟨?_, m3, ?_⟩
  · rw [m1, p1, hp]
  · rw [m2, p5]

theorem startGame_fields (mode : GameMode) (reseed : Int) (storedHigh : Nat)
    (now : Int) (s : GameState) :
    (startGame mode reseed storedHigh now s).phase = .playing ∧
    (startGame mode reseed storedHigh now s).directionBuffer = [] ∧
    (startGame mode reseed storedHigh now s).gracePeriodTicks = 3 ∧
    (startGame mode reseed storedHigh now s).tickRate = BASE_TICK_RATES mode ∧
    (startGame mode reseed storedHigh now s).baseTickRate = BASE_TICK_RATES mode ∧
    (startGame mode reseed storedHigh now s).snake ≠ [] ∧
    (startGame mode reseed storedHigh now s).mode = mode ∧
    (startGame mode reseed storedHigh now s).gridWidth = s.gridWidth ∧
    (startGame mode reseed storedHigh now s).gridHeight = s.gridHeight := by
  refine ⟨rfl, rfl, rfl, rfl, rfl, ?_, rfl, rfl, rfl⟩
  exact List.cons_ne_nil _ _

theorem base_rate_bounds (mode : GameMode) :
    MIN_TICK_RATE ≤ BASE_TICK_RATES mode := by
  cases mode <;> decide

theorem setDirection_cases (d : Direction) (s : GameState) :
    setDirection d s = s ∨
    (s.directionBuffer.length < 2 ∧
      setDirection d s = { s with directionBuffer := s.directionBuffer ++ [d] }) := by
  unfold setDirection
  split
  · exact Or.inl rfl
  · dsimp only
    split
    · exact Or.inl rfl
    · split
      · exact Or.inl rfl
      · split
        · exact Or.inr ⟨by assumption, rfl⟩
        · exact Or.inl rfl

theorem pause_fields (s : GameState) :
    (pause s).directionBuffer = s.directionBuffer ∧
    (pause s).tickRate = s.tickRate ∧ (pause s).baseTickRate = s.baseTickRate := by
  unfold pause
  split <;> exact ⟨rfl, rfl, rfl⟩

theorem resume_fields (s : GameState) :
    (resume s).directionBuffer = s.directionBuffer ∧
    (resume s).tickRate = s.tickRate ∧ (resume s).baseTickRate = s.baseTickRate := by
  unfold resume
  split <;> exact ⟨rfl, rfl, rfl⟩

theorem togglePause_fields (s : GameState) :
    (togglePause s).directionBuffer = s.directionBuffer ∧
    (togglePause s).tickRate = s.tickRate ∧
    (togglePause s).baseTickRate = s.baseTickRate := by
  unfold togglePause
  split
  · exact pause_fields s
  · split
    · exact resume_fields s
    · exact ⟨rfl, rfl, rfl⟩

theorem applyTicks_grace (l : List (Int × Int)) (s : GameState)
    (hp : s.phase = .playing) (hne : s.snake ≠ [])
    (hlen : (l.length : Int) ≤ s.gracePeriodTicks) :
    (applyTicks l s).phase = .playing ∧ (applyTicks l s).snake ≠ [] ∧
    (applyTicks l s).gracePeriodTicks = s.gracePeriodTicks - (l.length : Int) := by
  induction l generalizing s with
  | nil => exact ⟨hp, hne, by simp [applyTicks]⟩
  | cons p rest ih =>
    rw [List.length_cons] at hlen
    have hg : 0 < s.gracePeriodTicks := by
      push_cast at hlen
      omega
    have hred : applyTicks (p :: rest) s = applyTicks rest (tick p.1 p.2 s) := rfl
    rw [hred]
    obtain ⟨t1, t2, t3⟩ := tick_grace_step p.1 p.2 s hp hne hg
    have hlen2 : ((rest.length : Int)) ≤ (tick p.1 p.2 s).gracePeriodTicks := by
      rw [t3]
      push_cast at hlen ⊢
      omega
    obtain ⟨a1, a2, a3⟩ := ih (tick p.1 p.2 s) t1 t2 hlen2
    refine ⟨a1, a2, ?_⟩
    rw [a3, t3, List.length_cons]
    push_cast
    ring

/-- C3: grace period.  Starting from `startGame` (any mode, any prior
state) and at most 3 `tick` calls, whenever the tick computes a colliding
next head position (wall or body), the collision is absorbed: the phase
stays `playing` and every snake segment's position is unchanged by that
tick. -/
theorem c3_grace_period (prior : GameState) (mode : GameMode) (reseed : Int)
    (storedHigh : Nat) (now0 : Int) (ticksDone : List (Int × Int))
    (hlen : ticksDone.length < 3) (now deltaMs : Int)
    (hcol : collidesAt now
      (applyTicks ticksDone (startGame mode reseed storedHigh now0 prior)) = true) :
    (tick now deltaMs
        (applyTicks ticksDone (startGame mode reseed storedHigh now0 prior))).phase
      = .playing ∧
    positions (tick now deltaMs
        (applyTicks ticksDone (startGame mode reseed storedHigh now0 prior))).snake
      = positions
          (applyTicks ticksDone (startGame mode reseed storedHigh now0 prior)).snake := by
  obtain ⟨st1, _, st3, _, _, st6, _, _, _⟩ :=
    startGame_fields mode reseed storedHigh now0 prior
  obtain ⟨h1, h2, h3⟩ := applyTicks_grace ticksDone
    (startGame mode reseed storedHigh now0 prior) st1 st6
    (by rw [st3]; omega)
  have hg : 0 < (applyTicks ticksDone
      (startGame mode reseed storedHigh now0 prior)).gracePeriodTicks := by
    rw [h3, st3]
    omega
  rw [tick_playing_eq now deltaMs _ h1]
  obtain ⟨p1, _, _, _, p5, _, _, p8, _, _⟩ :=
    preMove_fields now (applyTicks ticksDone (startGame mode reseed storedHigh now0 prior))
  have hg4 : 0 < (preMove now (applyTicks ticksDone
      (startGame mode reseed storedHigh now0 prior))).gracePeriodTicks := by
    rw [p5]
    exact hg
  have habs := moveStep_absorb now
    (preMove now (applyTicks ticksDone (startGame mode reseed storedHigh now0 prior)))
    hcol hg4
  rw [habs]
  constructor
  · show (preMove now (applyTicks ticksDone
        (startGame mode reseed storedHigh now0 prior))).phase = .playing
    rw [p1]
    exact h1
  · show positions (preMove now (applyTicks ticksDone
        (startGame mode reseed storedHigh now0 prior))).snake = _
    exact p8

set_option maxRecDepth 32768 in
/-- C3 witness: a 1×1 grid, where the very first tick after `startGame`
drives the head into the wall; the collision is absorbed. -/
theorem c3_grace_period_witness :
    collidesAt 0 (applyTicks []
      (startGame .classic 0 0 0 (setGridSize 1 1 (createInitialState 0 0)))) = true ∧
    (tick 0 100 (applyTicks []
      (startGame .classic 0 0 0 (setGridSize 1 1 (createInitialState 0 0))))).phase
      = .playing := by
  have hc : collidesAt 0 (applyTicks []
      (startGame .classic 0 0 0 (setGridSize 1 1 (createInitialState 0 0)))) = true := by
    decide
  exact ⟨hc, (c3_grace_period (setGridSize 1 1 (createInitialState 0 0)) .classic 0 0 0
    [] (by decide) 0 100 hc).1⟩

/-- C9: in zen mode on a positive grid, `tick` never leaves the `playing`
phase: the head is wrapped into range before the wall check (so wall
collisions are impossible) and every self collision takes the absorb
branch, so no tick can reach the game-over transition. -/
theorem c9_zen_never_gameover (s : GameState) (now deltaMs : Int)
    (hz : s.mode = .zen) (hw : 0 < s.gridWidth) (hh : 0 < s.gridHeight)
    (hp : s.phase = .playing) :
    (tick now deltaMs s).phase = .playing := by
  rw [tick_playing_eq now deltaMs s hp]
  obtain ⟨p1, p2, p3, p4, _, _, _, _, _, _⟩ := preMove_fields now s
  have hz4 : (preMove now s).mode = .zen := by
    rw [p2, hz]
  have hw4 : 0 < (preMove now s).gridWidth := by
    rw [p3]
    exact hw
  have hh4 : 0 < (preMove now s).gridHeight := by
    rw [p4]
    exact hh
  rw [moveStep_zen_phase now _ hz4 hw4 hh4, p1, hp]

/-- C9 witness: one tick of a fresh zen game on the default 20×20 grid. -/
theorem c9_zen_never_gameover_witness :
    (tick 0 150 (startGame .zen 0 0 0 (createInitialState 0 0))).phase = .playing :=
  c9_zen_never_gameover (startGame .zen 0 0 0 (createInitialState 0 0)) 0 150
    rfl (by decide) (by decide) rfl

/-- A reachable playing state whose direction buffer already holds 2 pending
directions: start on a 2×2 grid and buffer UP then RIGHT. -/
def c5StateTwoBuffered : GameState :=
  setDirection .right (setDirection .up (startGame .classic 0 0 0
    (setGridSize 2 2 (createInitialState 0 0))))

/-- C5 (counterexample): with a full 2-entry buffer, a direction that passes
all three stated rejection conditions (phase is playing, it is neither the
reverse of nor equal to the most recently buffered direction) is still
dropped instead of appended, so the claim's "otherwise dir is appended" is
false at this reachable state. -/
theorem c5_full_buffer_counterexample :
    c5StateTwoBuffered.phase = .playing ∧
    c5StateTwoBuffered.directionBuffer = [.up, .right] ∧
    OPPOSITE_DIRECTION .down ≠
      c5StateTwoBuffered.directionBuffer.getLastD c5StateTwoBuffered.direction ∧
    Direction.down ≠
      c5StateTwoBuffered.directionBuffer.getLastD c5StateTwoBuffered.direction ∧
    (setDirection .down c5StateTwoBuffered).directionBuffer =
      c5StateTwoBuffered.directionBuffer ∧
    c5StateTwoBuffered.directionBuffer ++ [Direction.down] ≠
      c5StateTwoBuffered.directionBuffer := by
  decide

/-- C5 (amended): `setDirection dir` is a no-op whenever the phase is not
playing, or `dir` reverses or repeats the reference direction (most recently
buffered, else current), or the buffer already holds 2 pending directions;
otherwise `dir` is appended.  In every reachable state the buffer holds at
most 2 pending directions, `tick` dequeues from the front (oldest first),
and the dequeued direction is applied unless it reverses the current
direction. -/
theorem c5_setDirection_buffer :
    (∀ (dir : Direction) (s : GameState),
      ((s.phase ≠ .playing ∨
          OPPOSITE_DIRECTION dir = s.directionBuffer.getLastD s.direction ∨
          dir = s.directionBuffer.getLastD s.direction ∨
          2 ≤ s.directionBuffer.length) →
        setDirection dir s = s) ∧
      (s.phase = .playing →
        OPPOSITE_DIRECTION dir ≠ s.directionBuffer.getLastD s.direction →
        dir ≠ s.directionBuffer.getLastD s.direction →
        s.directionBuffer.length < 2 →
        setDirection dir s =
          { s with directionBuffer := s.directionBuffer ++ [dir] })) ∧
    (∀ s : GameState, Reachable s → s.directionBuffer.length ≤ 2) ∧
    (∀ (now deltaMs : Int) (s : GameState), s.phase = .playing →
      (tick now deltaMs s).directionBuffer = s.directionBuffer.tail) ∧
    (∀ (now deltaMs : Int) (s : GameState) (d : Direction) (rest : List Direction),
      s.phase = .playing → s.directionBuffer = d :: rest →
      (tick now deltaMs s).direction =
        if OPPOSITE_DIRECTION d ≠ s.direction then d else s.direction) := by
  refine ⟨?_, ?_, ?_, ?_⟩
  · intro dir s
    constructor
    · intro h
      unfold setDirection
      by_cases hp : s.phase ≠ .playing
      · rw [if_pos hp]
      · rw [if_neg hp]
        dsimp only
        by_cases h1 : OPPOSITE_DIRECTION dir = s.directionBuffer.getLastD s.direction
        · rw [if_pos h1]
        · rw [if_neg h1]
          by_cases h2 : dir = s.directionBuffer.getLastD s.direction
          · rw [if_pos h2]
          · rw [if_neg h2]
            have hlen : ¬ s.directionBuffer.length < 2 := by
              rcases h with h | h | h | h
              · exact absurd h hp
              · exact absurd h h1
              · exact absurd h h2
              · omega
            rw [if_neg hlen]
    · intro hp h1 h2 hlen
      unfold setDirection
      rw [if_neg (fun hc => hc hp)]
      dsimp only
      rw [if_neg h1, if_neg h2, if_pos hlen]
  · intro s hR
    induction hR with
    | init seed sh =>
      show ([] : List Direction).length ≤ 2
      decide
    | startGame s2 mode reseed sh now hR ih =>
      rw [(startGame_fields mode reseed sh now s2).2.1]
      decide
    | tick s2 now deltaMs hR ih =>
      by_cases hp : s2.phase = .playing
      · rw [tick_buffer_tail now deltaMs s2 hp, List.length_tail]
        omega
      · rw [tick_not_playing now deltaMs s2 hp]
        exact ih
    | setDirection s2 d hR ih =>
      rcases setDirection_cases d s2 with heq | ⟨hlt, heq⟩
      · rw [heq]
        exact ih
      · rw [heq]
        show (s2.directionBuffer ++ [d]).length ≤ 2
        rw [List.length_append]
        simp only [List.length_singleton]
        omega
    | pause s2 hR ih =>
      rw [(pause_fields s2).1]
      exact ih
    | resume s2 hR ih =>
      rw [(resume_fields s2).1]
      exact ih
    | togglePause s2 hR ih =>
      rw [(togglePause_fields s2).1]
      exact ih
    | goToMenu s2 hR ih => exact ih
    | setGridSize s2 w h hR ih => exact ih
  · exact fun now deltaMs s hp => tick_buffer_tail now deltaMs s hp
  · exact fun now deltaMs s d rest hp hbuf => tick_oldest_first now deltaMs s d rest hp hbuf

/-- C5 witness: on a fresh classic game (empty buffer, direction RIGHT),
`setDirection UP` is appended, and the constructor state's buffer respects
the bound. -/
theorem c5_setDirection_buffer_witness :
    setDirection .up (startGame .classic 0 0 0 (createInitialState 0 0)) =
      { startGame .classic 0 0 0 (createInitialState 0 0) with
        directionBuffer := [Direction.up] } ∧
    (createInitialState 0 0).directionBuffer.length ≤ 2 := by
  constructor
  · exact (c5_setDirection_buffer.1 Direction.up
      (startGame .classic 0 0 0 (createInitialState 0 0))).2
      rfl (by decide) (by decide) (by decide)
  · exact c5_setDirection_buffer.2.1 (createInitialState 0 0) (Reachable.init 0 0)

/-- C10: in every state reachable through the public operations, the tick
rate stays between the 50 ms floor and the mode's base rate: speed food and
the score ramp never push it below `MIN_TICK_RATE`, and slow food never
raises it above `baseTickRate`. -/
theorem c10_tick_rate_invariant (s : GameState) (h : Reachable s) :
    MIN_TICK_RATE ≤ s.tickRate ∧ s.tickRate ≤ s.baseTickRate := by
  suffices hmain : MIN_TICK_RATE ≤ s.tickRate ∧ s.tickRate ≤ s.baseTickRate ∧
      MIN_TICK_RATE ≤ s.baseTickRate by
    exact ⟨hmain.1, hmain.2.1⟩
  induction h with
  | init seed sh =>
    refine ⟨?_, ?_, ?_⟩ <;>
      first
      | exact (by decide : MIN_TICK_RATE ≤ BASE_TICK_RATES GameMode.classic)
      | exact (le_refl (BASE_TICK_RATES GameMode.classic))
  | startGame s2 mode reseed sh now hR ih =>
    obtain ⟨_, _, _, st4, st5, _, _, _, _⟩ := startGame_fields mode reseed sh now s2
    rw [st4, st5]
    exact ⟨base_rate_bounds mode, le_refl _, base_rate_bounds mode⟩
  | tick s2 now deltaMs hR ih =>
    by_cases hp : s2.phase = .playing
    · rw [tick_playing_eq now deltaMs s2 hp]
      obtain ⟨_, _, _, _, _, p6, p7, _, _, _⟩ := preMove_fields now s2
      exact moveStep_tickRate now (preMove now s2)
        (by rw [p6]; exact ih.1)
        (by rw [p6, p7]; exact ih.2.1)
        (by rw [p7]; exact ih.2.2)
    · rw [tick_not_playing now deltaMs s2 hp]
      exact ih
  | setDirection s2 d hR ih =>
    rcases setDirection_cases d s2 with heq | ⟨_, heq⟩
    · rw [heq]
      exact ih
    · rw [heq]
      exact ih
  | pause s2 hR ih =>
    obtain ⟨_, q2, q3⟩ := pause_fields s2
    rw [q2, q3]
    exact ih
  | resume s2 hR ih =>
    obtain ⟨_, q2, q3⟩ := resume_fields s2
    rw [q2, q3]
    exact ih
  | togglePause s2 hR ih =>
    obtain ⟨_, q2, q3⟩ := togglePause_fields s2
    rw [q2, q3]
    exact ih
  | goToMenu s2 hR ih => exact ih
  | setGridSize s2 w h hR ih => exact ih

/-- C10 witness: the constructor state (classic, tick rate 100). -/
theorem c10_tick_rate_invariant_witness :
    MIN_TICK_RATE ≤ (createInitialState 0 0).tickRate ∧
    (createInitialState 0 0).tickRate ≤ (createInitialState 0 0).baseTickRate :=
  c10_tick_rate_invariant (createInitialState 0 0) (Reachable.init 0 0)
